import Mathlib

set_option maxRecDepth 4000

/-!
Formal model of the GitTaskBench runner of this repository
(`src/gittaskbench/gittaskbench_runner.py`).

The runner is an orchestration layer: it loads per-task configuration from two
on-disk stores (`config/<task>/task_info.yaml` and `queries/<task>/query.json`),
resolves placeholder paths, invokes an external agent in a fresh scratch
directory, copies produced artifacts into a persistent per-task output
directory, records the outcome as a JSON file, and aggregates batch summaries.

The embedding below models:
  * directories as association lists from entry names to filesystem entries
    (a tree of files with string contents);
  * the Python string operations the runner uses (`str.startswith`,
    `str.replace`, `pathlib` joins and base names) as executable functions on
    `List Char`;
  * `shutil.copy2` as overwriting a single entry and
    `shutil.copytree(..., dirs_exist_ok=True)` as a recursive merge;
  * the external agent as an opaque function from the call arguments
    (task description, repository path, serialized input list) to an outcome
    (an opaque result payload, or an exception with message/type/traceback),
    together with the scratch-directory contents it leaves behind;
  * `json.dump` serialization as an abstract encoding function (the claims
    depend only on the file content being a function of the written record).

Simplifications, stated once here: operating-system failures (tempdir creation,
`open`, `rmtree`) are not modelled — `rmtree(..., ignore_errors=True)` always
succeeds, and writing a file at a name held by a directory (or copying a
directory over a file), which would raise in `shutil`, is modelled as
replacement.  No theorem below depends on those collision cases.
-/

namespace GitTaskBench

/-! ## Association lists (directories, config stores) -/

/-- Find the value bound to `name` in an association list (first binding wins,
mirroring a filesystem directory, where names are unique). -/
def assocFind {α : Type} : List (String × α) → String → Option α
  | [], _ => none
  | (k, v) :: rest, name => if k = name then some v else assocFind rest name

/-- Bind `name` to `v`, replacing an existing binding in place or appending a
new one: the effect of creating/overwriting a directory entry. -/
def assocSet {α : Type} : List (String × α) → String → α → List (String × α)
  | [], name, v => [(name, v)]
  | (k, w) :: rest, name, v =>
      if k = name then (k, v) :: rest else (k, w) :: assocSet rest name v

/-! ## Python string / pathlib operations -/

/-- `s.startswith(pre)`. -/
def strStartsWith (s pre : String) : Bool :=
  pre.data.isPrefixOf s.data

/-- Fueled worker for `pyReplace`.  At each position, if the (nonempty)
pattern is a prefix, emit the replacement and skip past the match, else emit
one character: exactly Python's left-to-right non-overlapping `str.replace`.
One unit of fuel is spent per emitted position, so fuel = input length is
always enough. -/
def replaceAllAux (pat repl : List Char) : Nat → List Char → List Char
  | _, [] => []
  | 0, l => l
  | fuel + 1, c :: rest =>
      if !pat.isEmpty && pat.isPrefixOf (c :: rest) then
        repl ++ replaceAllAux pat repl fuel (rest.drop (pat.length - 1))
      else
        c :: replaceAllAux pat repl fuel rest

/-- Python's `s.replace(pat, repl)` for a nonempty pattern: replaces every
non-overlapping occurrence, scanning left to right. -/
def pyReplace (s pat repl : String) : String :=
  ⟨replaceAllAux pat.data repl.data s.data.length s.data⟩

/-- `str(pathlib.Path(a) / b)` for a normalized absolute-ish root `a`:
joining with an absolute `b` discards `a`, otherwise the two are joined with a
single separator. -/
def pathJoin (a b : String) : String :=
  if strStartsWith b "/" then b else a ++ "/" ++ b

/-- Worker for `baseName`: tracks the component being read and the last
nonempty component seen so far. -/
def lastCompAux : List Char → List Char → List Char → List Char
  | [], cur, lastNE => if cur.isEmpty then lastNE else cur
  | c :: rest, cur, lastNE =>
      if c = '/' then lastCompAux rest [] (if cur.isEmpty then lastNE else cur)
      else lastCompAux rest (cur ++ [c]) lastNE

/-- `pathlib.Path(p).name`: the last nonempty path component (trailing
separators ignored), `""` when there is none. -/
def baseName (p : String) : String :=
  ⟨lastCompAux p.data [] []⟩

/-- Left-pad a two-digit field with a zero, as `"%02d"` would. -/
def pad2 (n : Nat) : String :=
  if n < 10 then "0" ++ toString n else toString n

/-- Model of `f"{successful/total*100:.2f}%" if total > 0 else "0%"` from
`_generate_summary`, computed exactly over rationals scaled to hundredths
(rounding half up; the float formatting agrees on every value exercised
here). -/
def formatRate (successful total : Nat) : String :=
  if total = 0 then "0%"
  else
    let hundredths := (successful * 20000 + total) / (2 * total)
    toString (hundredths / 100) ++ "." ++ pad2 (hundredths % 100) ++ "%"

/-- Insert a string into a ≤-sorted list, keeping it sorted. -/
def insertSorted (x : String) : List String → List String
  | [] => [x]
  | y :: ys => if x ≤ y then x :: y :: ys else y :: insertSorted x ys

/-- `sorted(...)` on strings (Python compares by code points, as Lean does). -/
def sortStrings : List String → List String
  | [] => []
  | x :: xs => insertSorted x (sortStrings xs)

/-! ## Filesystem entries and the artifact-collection loop -/

/-- A filesystem entry: a file with (byte-string) contents, or a directory
holding named children. -/
inductive FSEntry where
  | file (content : String) : FSEntry
  | dir (children : List (String × FSEntry)) : FSEntry
  deriving Repr

/-- The contents of one directory: named entries. -/
abbrev Dir := List (String × FSEntry)

/-- `Path.is_dir()` for an entry that exists. -/
def FSEntry.isDir : FSEntry → Bool
  | .file _ => false
  | .dir _ => true

mutual

/-- `shutil.copytree(src, dstPath, dirs_exist_ok=True)` where `dst` is the
entry currently at `dstPath` (if any): a source file overwrites; a source
directory is merged child-by-child into an existing destination directory
(`dirs_exist_ok=True`), or copied fresh otherwise. -/
def copytree (dst : Option FSEntry) : FSEntry → FSEntry
  | .file c => .file c
  | .dir ss =>
      .dir (copytreeGo
        (match dst with
         | some (.dir ds) => ds
         | _ => []) ss)
  termination_by src => sizeOf src

/-- Merge the source children `l` into the destination children `ds`, left to
right. -/
def copytreeGo (ds : Dir) : List (String × FSEntry) → Dir
  | [] => ds
  | (n, e) :: rest => copytreeGo (assocSet ds n (copytree (assocFind ds n) e)) rest
  termination_by l => sizeOf l

end

/-- The entry placed at a destination slot currently holding `old` when the
scratch entry `e` is copied: `shutil.copy2` for files (byte-for-byte
overwrite), `copytree` with merge for directories. -/
def copyExpected (old : Option FSEntry) : FSEntry → FSEntry
  | .file c => .file c
  | .dir cs => copytree old (.dir cs)

/-- Copy one scratch entry named `n` into the output directory `out`
(lines 196–201 of `run_single_task`). -/
def copyItem (out : Dir) (n : String) (e : FSEntry) : Dir :=
  assocSet out n (copyExpected (assocFind out n) e)

/-- The fixed dataset-directory name skipped during collection. -/
def inputDatasetName : String := "input_dataset"

/-- The skip test of line 190: the entry is a directory AND its name is the
repository's base name or the fixed dataset-directory name.  (A *file* with
one of these names is not skipped.) -/
def skipEntry (repoBase n : String) (e : FSEntry) : Bool :=
  e.isDir && (n == repoBase || n == inputDatasetName)

/-- The artifact-collection loop of lines 188–203: iterate the top-level
scratch entries; skip the repository/dataset directories; copy files
byte-for-byte and directories recursively (merging). -/
def collectOutputs (repoBase : String) : Dir → Dir → Dir
  | [], out => out
  | (n, e) :: rest, out =>
      if skipEntry repoBase n e then collectOutputs repoBase rest out
      else collectOutputs repoBase rest (copyItem out n e)

/-! ## Configuration documents

`task_info.yaml` is an arbitrary key-value document of which the runner reads
exactly three keys (`task_description`, `repositories`, `input_data`), always
through `.get` with a default; `TaskInfoDoc` models those three keys, each
optional.  `query.json` is read through `.get` for `task_description`,
`repositories` and the nested `file_paths.input_files`. -/

/-- One entry of a `repositories` list: `name` and `path` keys, each read via
`.get(..., '')`. -/
structure RepoRef where
  name : Option String
  path : Option String
  deriving Repr, DecidableEq

/-- One input-file descriptor: only its `path` key is ever consulted
(`if 'path' in data_item`). -/
structure DataItem where
  path : Option String
  deriving Repr, DecidableEq

/-- The `file_paths` object of `query.json` with its `input_files` key. -/
structure FilePathsDoc where
  input_files : Option (List DataItem)
  deriving Repr, DecidableEq

/-- A `query.json` document: the three fields the runner reads. -/
structure QueryDoc where
  task_description : Option String
  repositories : Option (List RepoRef)
  file_paths : Option FilePathsDoc
  deriving Repr, DecidableEq

/-- A `task_info.yaml` document, restricted to the keys the runner consumes. -/
structure TaskInfoDoc where
  task_description : Option String
  repositories : Option (List RepoRef)
  input_data : Option (List DataItem)
  deriving Repr, DecidableEq

/-- The runner's configuration state, fixed at construction (`__init__`,
lines 26–57): the benchmark root, the output root, the model-backend
identifier, and the two on-disk config stores, modelled as association lists
keyed by task identifier (`config/<tid>/task_info.yaml` and
`queries/<tid>/query.json`).  `code_base` is derived from the root. -/
structure Runner where
  gittaskbench_root : String
  output_root : String
  api_type : String
  configs : List (String × TaskInfoDoc)
  queries : List (String × QueryDoc)

/-- Errors raised by the runner itself before the `try` block of
`run_single_task`: both are Python `ValueError`s. -/
inductive RunnerError where
  | configNotFound (tid : String)
  | noRepository (tid : String)
  deriving Repr, DecidableEq

/-- `get_all_tasks` (lines 59–65): the task identifiers that have a metadata
document, in sorted order. -/
def get_all_tasks (R : Runner) : List String :=
  sortStrings (R.configs.map Prod.fst)

/-- `load_task_config` (lines 67–88): fail if `task_info.yaml` is absent;
otherwise, when `query.json` exists, *assign* the three keys from the query
document (with `''` / `[]` defaults when the query omits them), and when it
does not exist return the metadata document unchanged. -/
def load_task_config (R : Runner) (tid : String) : Except RunnerError TaskInfoDoc :=
  match assocFind R.configs tid with
  | none => .error (.configNotFound tid)
  | some ti =>
      match assocFind R.queries tid with
      | none => .ok ti
      | some q =>
          .ok { task_description := some (q.task_description.getD "")
                repositories := some (q.repositories.getD [])
                input_data := some ((q.file_paths.getD { input_files := none }).input_files.getD []) }

/-- The benchmark-root placeholder prefix of absolute paths in `query.json`. -/
def benchPlaceholder : String := "/GitTaskBench/"

/-- Repository-path resolution (lines 119–128): a path starting with the
placeholder goes through `repo_path.replace('/GitTaskBench/', '')` — note
Python's `str.replace` removes *every* occurrence, not only the leading
prefix — and is joined to the benchmark root; otherwise the fallback joins
`code_base` with the repository's declared name. -/
def resolveRepository (R : Runner) (repo : RepoRef) : String :=
  let repo_path := repo.path.getD ""
  if strStartsWith repo_path benchPlaceholder then
    pathJoin R.gittaskbench_root (pyReplace repo_path benchPlaceholder "")
  else
    pathJoin (pathJoin R.gittaskbench_root "code_base") (repo.name.getD "")

/-- Input-file rewriting (lines 134–140): an item with a `path` starting with
the placeholder has it replaced (again `str.replace`, all occurrences) and
joined to the benchmark root; any other item is left exactly as given. -/
def rewriteDataItem (root : String) (d : DataItem) : DataItem :=
  match d.path with
  | none => d
  | some p =>
      if strStartsWith p benchPlaceholder then
        { path := some (pathJoin root (pyReplace p benchPlaceholder "")) }
      else d

/-- Abstract model of `json.dumps` on one input-file descriptor. -/
def encodeDataItem (d : DataItem) : String :=
  match d.path with
  | none => "(item)"
  | some p => "(item path=" ++ p ++ ")"

/-- Abstract model of `json.dumps(input_data)`. -/
def encodeDataItems (l : List DataItem) : String :=
  "[" ++ String.intercalate ", " (l.map encodeDataItem) ++ "]"

/-- The record serialized to `execution_result.json` on success (lines
206–213) or to `execution_error.json` on failure (lines 231–238). -/
inductive ResultData where
  | success (tid result output_dir repository task_description : String) : ResultData
  | failure (tid error error_type traceback output_dir : String) : ResultData
  deriving Repr, DecidableEq

/-- The `success` boolean stored in the record (`result['success']`). -/
def ResultData.isSuccess : ResultData → Bool
  | .success .. => true
  | .failure .. => false

/-- Abstract model of the `json.dump` of a result record: the claims depend
only on the written file content being a function of the record. -/
def encodeResultData : ResultData → String
  | .success tid res outd repo desc =>
      "success;" ++ tid ++ ";" ++ res ++ ";" ++ outd ++ ";" ++ repo ++ ";" ++ desc
  | .failure tid err ty tb outd =>
      "error;" ++ tid ++ ";" ++ err ++ ";" ++ ty ++ ";" ++ tb ++ ";" ++ outd

/-- Outcome of the single blocking agent invocation
(`agent.run_repository_agent`, lines 177–181), together with the contents the
invocation leaves in the scratch directory: either an opaque result payload,
or a raised exception with message, type name and formatted traceback. -/
inductive AgentOutcome where
  | ok (result : String) (scratch : Dir) : AgentOutcome
  | exn (message typeName traceback : String) (scratch : Dir) : AgentOutcome

/-- The external agent, abstracted as a function of exactly the three call
arguments `(task_description, repository, input_data)`.  The backend
configuration built from `api_type` is part of this opaque behaviour. -/
abbrev AgentBehavior := String → String → Option String → AgentOutcome

/-- The values `run_single_task` computes from the merged record before any
directory is created (lines 106–141). -/
structure ResolvedTask where
  task_description : String
  repository : String
  input_data : List DataItem
  input_data_json : Option String
  deriving Repr, DecidableEq

/-- Lines 106–141 of `run_single_task`: load and merge the config (raising
`config not found` if the metadata document is absent), raise
`No repository found` on an empty or absent repository list, resolve the
first repository's path, rewrite the input items, and serialize them
(`json.dumps(input_data) if input_data else None` — an empty list serializes
to `None`). -/
def resolveTask (R : Runner) (tid : String) : Except RunnerError ResolvedTask :=
  match load_task_config R tid with
  | .error e => .error e
  | .ok ti =>
      match ti.repositories.getD [] with
      | [] => .error (.noRepository tid)
      | repo :: _ =>
          let input_data := (ti.input_data.getD []).map (rewriteDataItem R.gittaskbench_root)
          .ok { task_description := ti.task_description.getD ""
                repository := resolveRepository R repo
                input_data := input_data
                input_data_json :=
                  if input_data.isEmpty then none else some (encodeDataItems input_data) }

/-- Observable effects of one `run_single_task` call.  `tempCreated` /
`outputEnsured` record whether execution reached `tempfile.mkdtemp` and
`final_output_dir.mkdir` (lines 144–148); `outputDir` is the contents of the
task's output directory afterwards; `tempExistsAfter` is whether the scratch
directory still exists; `returned` is the Python return value, or the
`ValueError` raised before the `try` block. -/
structure SingleRun where
  tempCreated : Bool
  outputEnsured : Bool
  outputDir : Dir
  tempExistsAfter : Bool
  returned : Except RunnerError ResultData

/-- The fixed name of the success-result JSON file. -/
def resultFileName : String := "execution_result.json"

/-- The fixed name of the error JSON file. -/
def errorFileName : String := "execution_error.json"

/-- `run_single_task` (lines 90–251), for initial output-directory contents
`outInit` (the directory is created with `exist_ok=True` and may hold files
from earlier runs).  On success: artifacts are collected from the scratch
directory (skipping the repository and dataset directories), the success
record is written to `execution_result.json`, and the scratch directory is
removed.  On an agent exception: *only* the error record is written to
`execution_error.json` (the collection loop is inside the `try`, so no
artifact is copied), and the scratch directory is removed.  Errors raised
before the `try` leave both directories untouched. -/
def run_single_task (R : Runner) (agent : AgentBehavior) (tid : String) (outInit : Dir) :
    SingleRun :=
  match resolveTask R tid with
  | .error e =>
      { tempCreated := false, outputEnsured := false, outputDir := outInit,
        tempExistsAfter := false, returned := .error e }
  | .ok rt =>
      let final_output_dir := pathJoin R.output_root tid
      match agent rt.task_description rt.repository rt.input_data_json with
      | .ok result scratch =>
          let rd := ResultData.success tid result final_output_dir rt.repository
            rt.task_description
          { tempCreated := true, outputEnsured := true,
            outputDir := assocSet (collectOutputs (baseName rt.repository) scratch outInit)
              resultFileName (.file (encodeResultData rd)),
            tempExistsAfter := false, returned := .ok rd }
      | .exn msg ty tb _scratch =>
          let ed := ResultData.failure tid msg ty tb final_output_dir
          { tempCreated := true, outputEnsured := true,
            outputDir := assocSet outInit errorFileName (.file (encodeResultData ed)),
            tempExistsAfter := false, returned := .ok ed }

/-- The batch summary record (`_generate_summary`, lines 302–332). -/
structure Summary where
  total_tasks : Nat
  successful : Nat
  failed : Nat
  success_rate : String
  api_type : String
  output_root : String
  results : List ResultData
  deriving Repr, DecidableEq

/-- `_generate_summary`: totals, the formatted success rate, and the ordered
result list. -/
def mkSummary (R : Runner) (results : List ResultData) (successful failed : Nat) : Summary :=
  { total_tasks := results.length
    successful := successful
    failed := failed
    success_rate := formatRate successful results.length
    api_type := R.api_type
    output_root := R.output_root
    results := results }

/-- Observable effects of one `run_batch` call: the tasks actually invoked
(with each one's `SingleRun`), the successive contents written to
`evaluation_progress.json`, the final summary (absent when a task raised out
of the loop), and the propagated error if any. -/
structure BatchRun where
  taskEffects : List (String × SingleRun)
  progressWrites : List (List ResultData)
  summary : Option Summary
  raised : Option RunnerError

/-- The loop of `run_batch` (lines 279–294): run each task with
`verbose=False`, append its result, count success/failure, and overwrite the
progress file with the full result list after every task.  An exception from
`run_single_task` propagates, aborting the loop with no summary.  `outInits`
gives each task's initial output-directory contents. -/
def runLoop (R : Runner) (agent : AgentBehavior) (outInits : String → Dir) :
    List String → List ResultData → Nat → Nat → List (String × SingleRun) →
      List (List ResultData) → BatchRun
  | [], results, successful, failed, effs, writes =>
      { taskEffects := effs.reverse, progressWrites := writes.reverse,
        summary := some (mkSummary R results successful failed), raised := none }
  | tid :: rest, results, successful, failed, effs, writes =>
      match (run_single_task R agent tid (outInits tid)).returned with
      | .error e =>
          { taskEffects := ((tid, run_single_task R agent tid (outInits tid)) :: effs).reverse,
            progressWrites := writes.reverse, summary := none, raised := some e }
      | .ok rd =>
          runLoop R agent outInits rest (results ++ [rd])
            (if rd.isSuccess then successful + 1 else successful)
            (if rd.isSuccess then failed else failed + 1)
            ((tid, run_single_task R agent tid (outInits tid)) :: effs)
            ((results ++ [rd]) :: writes)

/-- The task-selection cap (lines 268–269): `if max_tasks: task_ids =
task_ids[:max_tasks]` — Python truthiness makes a cap of `0` (like `None`)
ignore the cap entirely. -/
def applyMaxTasks (ids : List String) : Option Nat → List String
  | none => ids
  | some 0 => ids
  | some (n + 1) => ids.take (n + 1)

/-- `run_batch` (lines 253–294): select the explicit task list or all known
tasks, apply the cap, and run the loop starting from empty accumulators. -/
def run_batch (R : Runner) (agent : AgentBehavior) (outInits : String → Dir)
    (task_ids : Option (List String)) (max_tasks : Option Nat) : BatchRun :=
  runLoop R agent outInits (applyMaxTasks (task_ids.getD (get_all_tasks R)) max_tasks)
    [] 0 0 [] []

/-! ## Concrete configurations used to instantiate the theorems -/

/-- A repository reference with a placeholder-prefixed path. -/
def exRepo : RepoRef := { name := some "repoA", path := some "/GitTaskBench/code_base/repoA" }

/-- A metadata document for a one-repository task. -/
def exTI : TaskInfoDoc :=
  { task_description := some "task one", repositories := some [exRepo], input_data := none }

/-- A runner with one configured task `T1` and no query documents. -/
def exRunner : Runner :=
  { gittaskbench_root := "/gtb", output_root := "/out", api_type := "basic",
    configs := [("T1", exTI)], queries := [] }

/-- The record `resolveTask exRunner "T1"` produces. -/
def exRT : ResolvedTask :=
  { task_description := "task one", repository := "/gtb/code_base/repoA",
    input_data := [], input_data_json := none }

/-- An agent that succeeds leaving one plain artifact file in the scratch
directory. -/
def exAgentOk : AgentBehavior := fun _ _ _ => .ok "done" [("a.txt", FSEntry.file "hello")]

/-- An agent whose invocation raises, leaving an artifact file behind in the
scratch directory. -/
def exAgentRaise : AgentBehavior :=
  fun _ _ _ => .exn "boom" "RuntimeError" "tb" [("a.txt", FSEntry.file "hello")]

/-- An agent that succeeds leaving a *file* (not a directory) named
`input_dataset` in the scratch directory. -/
def exAgentDatasetFile : AgentBehavior :=
  fun _ _ _ => .ok "ok" [("input_dataset", FSEntry.file "d")]

/-- An agent that succeeds leaving a file named `execution_error.json` in the
scratch directory. -/
def exAgentErrFile : AgentBehavior :=
  fun _ _ _ => .ok "done" [("execution_error.json", FSEntry.file "new")]

/-- Output-directory contents holding a stale error JSON from a previous
failed run. -/
def exStaleErr : Dir := [("execution_error.json", FSEntry.file "old")]

/-- Metadata document for batch task `A1`. -/
def exTIA : TaskInfoDoc :=
  { task_description := some "task A", repositories := some [exRepo], input_data := none }

/-- Metadata document for batch task `B1`. -/
def exTIB : TaskInfoDoc :=
  { task_description := some "task B", repositories := some [exRepo], input_data := none }

/-- A runner with two configured tasks `A1` and `B1`. -/
def exRunner3 : Runner :=
  { gittaskbench_root := "/gtb", output_root := "/out", api_type := "basic",
    configs := [("A1", exTIA), ("B1", exTIB)], queries := [] }

/-- An agent that raises on task `A1` (recognized by its description) and
succeeds on anything else. -/
def exAgent3 : AgentBehavior := fun td _ _ =>
  if td = "task A" then .exn "boom" "RuntimeError" "tb" [] else .ok "fine" []

/-- The record `resolveTask exRunner3 "A1"` produces. -/
def exRTA : ResolvedTask :=
  { task_description := "task A", repository := "/gtb/code_base/repoA",
    input_data := [], input_data_json := none }

/-- The record `resolveTask exRunner3 "B1"` produces. -/
def exRTB : ResolvedTask :=
  { task_description := "task B", repository := "/gtb/code_base/repoA",
    input_data := [], input_data_json := none }

/-- A metadata document whose `task_description` is present. -/
def exTI7 : TaskInfoDoc :=
  { task_description := some "meta description", repositories := some [exRepo],
    input_data := none }

/-- A query document that omits `task_description` and `file_paths`. -/
def exQ7 : QueryDoc :=
  { task_description := none, repositories := some [exRepo], file_paths := none }

/-- A runner where task `T7` has both a metadata and a query document. -/
def exRunner7 : Runner :=
  { gittaskbench_root := "/gtb", output_root := "/out", api_type := "basic",
    configs := [("T7", exTI7)], queries := [("T7", exQ7)] }

/-- A metadata document with an empty repository list. -/
def exTI9 : TaskInfoDoc :=
  { task_description := some "task nine", repositories := some [], input_data := none }

/-- A runner whose task `T9` has no repositories. -/
def exRunner9 : Runner :=
  { gittaskbench_root := "/gtb", output_root := "/out", api_type := "basic",
    configs := [("T9", exTI9)], queries := [] }

/-- A repository reference whose path contains the placeholder twice. -/
def exRepo8 : RepoRef := { name := some "n", path := some "/GitTaskBench/data/GitTaskBench/f" }

/-! ## Helper lemmas about directories and the collection loop -/

/-- Looking up the name just set yields the value set. -/
theorem assocFind_assocSet_self {α : Type} (d : List (String × α)) (n : String) (v : α) :
    assocFind (assocSet d n v) n = some v := by
  induction d with
  | nil => simp [assocSet, assocFind]
  | cons p rest ih =>
      obtain ⟨k, w⟩ := p
      by_cases h : k = n
      · subst h
        simp [assocSet, assocFind]
      · simp [assocSet, assocFind, h, ih]

/-- Setting one name leaves every other name's binding unchanged. -/
theorem assocFind_assocSet_ne {α : Type} (d : List (String × α)) (n m : String) (v : α)
    (h : n ≠ m) : assocFind (assocSet d n v) m = assocFind d m := by
  induction d with
  | nil => simp [assocSet, assocFind, h]
  | cons p rest ih =>
      obtain ⟨k, w⟩ := p
      by_cases hk : k = n
      · subst hk
        simp [assocSet, assocFind, h]
      · by_cases hm : k = m
        · subst hm
          simp [assocSet, assocFind, hk]
        · simp [assocSet, assocFind, hk, hm, ih]

/-- A name that is not among the keys has no binding. -/
theorem assocFind_eq_none {α : Type} (d : List (String × α)) (name : String)
    (h : name ∉ d.map Prod.fst) : assocFind d name = none := by
  induction d with
  | nil => rfl
  | cons p rest ih =>
      obtain ⟨k, w⟩ := p
      simp only [List.map_cons, List.mem_cons] at h
      push_neg at h
      simp only [assocFind]
      rw [if_neg (Ne.symm h.1)]
      exact ih h.2

/-- Artifact collection never touches a name that has no scratch entry. -/
theorem collectOutputs_find_of_absent (b name : String) :
    ∀ (scratch out : Dir), assocFind scratch name = none →
      assocFind (collectOutputs b scratch out) name = assocFind out name := by
  intro scratch
  induction scratch with
  | nil =>
      intro out _
      rfl
  | cons p rest ih =>
      obtain ⟨k, e⟩ := p
      intro out h
      by_cases hk : k = name
      · subst hk
        simp [assocFind] at h
      · have h2 : assocFind rest name = none := by simpa [assocFind, hk] using h
        by_cases hs : skipEntry b k e = true
        · simpa [collectOutputs, hs] using ih out h2
        · have hstep : collectOutputs b ((k, e) :: rest) out
              = collectOutputs b rest (copyItem out k e) := by
            simp [collectOutputs, hs]
          rw [hstep, ih _ h2, copyItem, assocFind_assocSet_ne _ _ _ _ hk]

/-- If every scratch entry bearing `name` is skipped and the output directory
does not contain `name`, it still does not after collection. -/
theorem collectOutputs_find_none (b name : String) :
    ∀ (scratch out : Dir), assocFind out name = none →
      (∀ p ∈ scratch, p.1 = name → skipEntry b p.1 p.2 = true) →
      assocFind (collectOutputs b scratch out) name = none := by
  intro scratch
  induction scratch with
  | nil =>
      intro out h _
      exact h
  | cons p rest ih =>
      obtain ⟨k, e⟩ := p
      intro out h hs
      by_cases hsk : skipEntry b k e = true
      · simpa [collectOutputs, hsk] using
          ih out h (fun q hq => hs q (List.mem_cons_of_mem _ hq))
      · have hk : k ≠ name := fun hkn => hsk (hs (k, e) (List.mem_cons_self _ _) hkn)
        have h2 : assocFind (copyItem out k e) name = none := by
          rw [copyItem, assocFind_assocSet_ne _ _ _ _ hk]
          exact h
        simpa [collectOutputs, hsk] using
          ih (copyItem out k e) h2 (fun q hq => hs q (List.mem_cons_of_mem _ hq))

/-- For a non-skipped scratch entry (unique among the scratch names), the
collection loop places at its name exactly the copied entry: the file itself,
or the recursive merge of the source directory over what the output directory
held at that name. -/
theorem collectOutputs_find_copied (b name : String) (e : FSEntry) :
    ∀ (scratch : Dir), (scratch.map Prod.fst).Nodup →
      assocFind scratch name = some e →
      skipEntry b name e = false →
      ∀ out, assocFind (collectOutputs b scratch out) name
        = some (copyExpected (assocFind out name) e) := by
  intro scratch
  induction scratch with
  | nil =>
      intro _ h
      simp [assocFind] at h
  | cons p rest ih =>
      obtain ⟨k, v⟩ := p
      intro hnd hfind hskip out
      have hcons : (k :: rest.map Prod.fst).Nodup := by simpa using hnd
      by_cases hk : k = name
      · subst hk
        have hv : v = e := by simpa [assocFind] using hfind
        subst hv
        have hnotin : k ∉ rest.map Prod.fst := (List.nodup_cons.mp hcons).1
        have hrest : assocFind rest k = none := assocFind_eq_none rest k hnotin
        have hstep : collectOutputs b ((k, v) :: rest) out
            = collectOutputs b rest (copyItem out k v) := by
          simp [collectOutputs, hskip]
        rw [hstep, collectOutputs_find_of_absent b k rest _ hrest, copyItem,
          assocFind_assocSet_self]
      · have hfind2 : assocFind rest name = some e := by simpa [assocFind, hk] using hfind
        have hnd2 : (rest.map Prod.fst).Nodup := (List.nodup_cons.mp hcons).2
        by_cases hs : skipEntry b k v = true
        · simpa [collectOutputs, hs] using ih hnd2 hfind2 hskip out
        · have heq : assocFind (copyItem out k v) name = assocFind out name := by
            rw [copyItem]
            exact assocFind_assocSet_ne _ _ _ _ hk
          have hstep : collectOutputs b ((k, v) :: rest) out
              = collectOutputs b rest (copyItem out k v) := by
            simp [collectOutputs, hs]
          rw [hstep, ih hnd2 hfind2 hskip (copyItem out k v), heq]

/-! ## Characterizations of `run_single_task` -/

/-- When the pre-`try` phase raises (config missing or no repository), the
run creates nothing, writes nothing, and propagates the error. -/
theorem run_single_task_pre_error (R : Runner) (agent : AgentBehavior) (tid : String)
    (outInit : Dir) (e : RunnerError) (hrt : resolveTask R tid = .error e) :
    run_single_task R agent tid outInit =
      { tempCreated := false, outputEnsured := false, outputDir := outInit,
        tempExistsAfter := false, returned := .error e } := by
  simp [run_single_task, hrt]

/-- When the agent invocation succeeds, the run collects artifacts, writes
the success record, deletes the scratch directory and returns the record. -/
theorem run_single_task_agent_ok (R : Runner) (agent : AgentBehavior) (tid : String)
    (outInit : Dir) (rt : ResolvedTask) (res : String) (scratch : Dir)
    (hrt : resolveTask R tid = .ok rt)
    (hag : agent rt.task_description rt.repository rt.input_data_json = .ok res scratch) :
    run_single_task R agent tid outInit =
      { tempCreated := true, outputEnsured := true,
        outputDir := assocSet (collectOutputs (baseName rt.repository) scratch outInit)
          resultFileName
          (.file (encodeResultData (ResultData.success tid res (pathJoin R.output_root tid)
            rt.repository rt.task_description))),
        tempExistsAfter := false,
        returned := .ok (ResultData.success tid res (pathJoin R.output_root tid)
          rt.repository rt.task_description) } := by
  simp [run_single_task, hrt, hag]

/-- When the agent invocation raises, the run writes only the error record
(no artifact is copied), deletes the scratch directory and returns it. -/
theorem run_single_task_agent_exn (R : Runner) (agent : AgentBehavior) (tid : String)
    (outInit : Dir) (rt : ResolvedTask) (msg ty tb : String) (scratch : Dir)
    (hrt : resolveTask R tid = .ok rt)
    (hag : agent rt.task_description rt.repository rt.input_data_json = .exn msg ty tb scratch) :
    run_single_task R agent tid outInit =
      { tempCreated := true, outputEnsured := true,
        outputDir := assocSet outInit errorFileName
          (.file (encodeResultData (ResultData.failure tid msg ty tb
            (pathJoin R.output_root tid)))),
        tempExistsAfter := false,
        returned := .ok (ResultData.failure tid msg ty tb (pathJoin R.output_root tid)) } := by
  simp [run_single_task, hrt, hag]

/-- Once the task record resolves, `run_single_task` returns normally (both
agent outcomes are caught). -/
theorem run_single_task_returned_ok (R : Runner) (agent : AgentBehavior) (tid : String)
    (outInit : Dir) (rt : ResolvedTask) (hrt : resolveTask R tid = .ok rt) :
    ∃ rd, (run_single_task R agent tid outInit).returned = .ok rd := by
  cases hag : agent rt.task_description rt.repository rt.input_data_json with
  | ok res scratch =>
      exact ⟨_, by rw [run_single_task_agent_ok R agent tid outInit rt res scratch hrt hag]⟩
  | exn m t b s =>
      exact ⟨_, by rw [run_single_task_agent_exn R agent tid outInit rt m t b s hrt hag]⟩

/-- When every selected task resolves, the batch loop invokes exactly the
selected tasks, in order. -/
theorem runLoop_map_fst (R : Runner) (agent : AgentBehavior) (outInits : String → Dir) :
    ∀ (ids : List String) (results : List ResultData) (s f : Nat)
      (effs : List (String × SingleRun)) (writes : List (List ResultData)),
      (∀ tid ∈ ids, ∃ rd, (run_single_task R agent tid (outInits tid)).returned = .ok rd) →
      (runLoop R agent outInits ids results s f effs writes).taskEffects.map Prod.fst
        = (effs.map Prod.fst).reverse ++ ids := by
  intro ids
  induction ids with
  | nil =>
      intro results s f effs writes _
      simp [runLoop]
  | cons tid rest ih =>
      intro results s f effs writes h
      obtain ⟨rd, hrd⟩ := h tid (List.mem_cons_self _ _)
      have hrest : ∀ t ∈ rest, ∃ rd,
          (run_single_task R agent t (outInits t)).returned = .ok rd :=
        fun t ht => h t (List.mem_cons_of_mem _ ht)
      simp only [runLoop, hrd]
      rw [ih (results ++ [rd]) _ _ _ _ hrest]
      simp

/-! ## Claim C1 -/

/-- C1 (refuted as stated): artifact collection is *not* performed when the
agent invocation raises.  Concrete run: the agent raises leaving the plain
file `a.txt` in the scratch directory, the run completes through the error
path, yet `a.txt` is absent from the output directory. -/
theorem C1_counterexample :
    (run_single_task exRunner exAgentRaise "T1" []).returned
      = .ok (ResultData.failure "T1" "boom" "RuntimeError" "tb" "/out/T1") ∧
    assocFind (run_single_task exRunner exAgentRaise "T1" []).outputDir "a.txt" = none :=
  ⟨rfl, rfl⟩

/-- C1 (amended): after a *successful* agent invocation, every non-skipped
top-level scratch entry (with scratch names unique and the entry not named
like the result JSON) is copied into the output directory — a file
byte-for-byte, a directory recursively merged over any existing same-named
entry; when the invocation raises, no artifact is copied and the output
directory changes only by the error JSON. -/
theorem C1_theorem (R : Runner) (agent : AgentBehavior) (tid : String) (outInit : Dir)
    (rt : ResolvedTask) (hrt : resolveTask R tid = .ok rt) :
    (∀ res scratch name e,
        agent rt.task_description rt.repository rt.input_data_json = .ok res scratch →
        (scratch.map Prod.fst).Nodup →
        assocFind scratch name = some e →
        skipEntry (baseName rt.repository) name e = false →
        name ≠ resultFileName →
        assocFind (run_single_task R agent tid outInit).outputDir name
          = some (copyExpected (assocFind outInit name) e)) ∧
    (∀ msg ty tb scratch,
        agent rt.task_description rt.repository rt.input_data_json = .exn msg ty tb scratch →
        (run_single_task R agent tid outInit).outputDir
          = assocSet outInit errorFileName
              (.file (encodeResultData (ResultData.failure tid msg ty tb
                (pathJoin R.output_root tid))))) := by
  constructor
  · intro res scratch name e hag hnd hfind hskip hname
    rw [run_single_task_agent_ok R agent tid outInit rt res scratch hrt hag]
    rw [assocFind_assocSet_ne _ _ _ _ (Ne.symm hname)]
    exact collectOutputs_find_copied _ _ _ scratch hnd hfind hskip outInit
  · intro msg ty tb scratch hag
    rw [run_single_task_agent_exn R agent tid outInit rt msg ty tb scratch hrt hag]

/-- C1 witness: a successful run copies the scratch file `a.txt` into the
output directory. -/
theorem C1_witness :
    resolveTask exRunner "T1" = .ok exRT ∧
    assocFind (run_single_task exRunner exAgentOk "T1" []).outputDir "a.txt"
      = some (FSEntry.file "hello") :=
  ⟨rfl,
    (C1_theorem exRunner exAgentOk "T1" [] exRT rfl).1 "done"
      [("a.txt", FSEntry.file "hello")] "a.txt" (FSEntry.file "hello")
      rfl (by decide) rfl rfl (by decide)⟩

/-! ## Claim C2 -/

/-- C2 (refuted as stated): the skip test requires `is_dir()`, so a successful
run whose scratch directory holds a regular *file* named `input_dataset`
copies it into the output directory. -/
theorem C2_counterexample :
    (run_single_task exRunner exAgentDatasetFile "T1" []).returned
      = .ok (ResultData.success "T1" "ok" "/out/T1" "/gtb/code_base/repoA" "task one") ∧
    assocFind (run_single_task exRunner exAgentDatasetFile "T1" []).outputDir inputDatasetName
      = some (FSEntry.file "d") :=
  ⟨rfl, rfl⟩

/-- C2 (amended): for a successful run whose output directory initially lacks
entries named after the repository base name or `input_dataset`, whose
scratch entries bearing one of those names are all directories, and whose
repository base name is not the result-JSON name, the output directory after
the run contains no entry with either name. -/
theorem C2_theorem (R : Runner) (agent : AgentBehavior) (tid : String) (outInit : Dir)
    (rt : ResolvedTask) (res : String) (scratch : Dir)
    (hrt : resolveTask R tid = .ok rt)
    (hag : agent rt.task_description rt.repository rt.input_data_json = .ok res scratch)
    (hb : baseName rt.repository ≠ resultFileName)
    (h1 : assocFind outInit (baseName rt.repository) = none)
    (h2 : assocFind outInit inputDatasetName = none)
    (hs : ∀ p ∈ scratch, (p.1 = baseName rt.repository ∨ p.1 = inputDatasetName) →
        p.2.isDir = true) :
    assocFind (run_single_task R agent tid outInit).outputDir (baseName rt.repository) = none ∧
    assocFind (run_single_task R agent tid outInit).outputDir inputDatasetName = none := by
  rw [run_single_task_agent_ok R agent tid outInit rt res scratch hrt hag]
  constructor
  · rw [assocFind_assocSet_ne _ _ _ _ (Ne.symm hb)]
    apply collectOutputs_find_none _ _ scratch outInit h1
    intro p hp hpn
    have hd := hs p hp (Or.inl hpn)
    simp [skipEntry, hpn, hd]
  · rw [assocFind_assocSet_ne _ _ _ _ (by decide : resultFileName ≠ inputDatasetName)]
    apply collectOutputs_find_none _ _ scratch outInit h2
    intro p hp hpn
    have hd := hs p hp (Or.inr hpn)
    simp [skipEntry, hpn, hd]

/-- C2 witness: a successful run with a benign scratch directory leaves no
repository or dataset entry in the output directory. -/
theorem C2_witness :
    resolveTask exRunner "T1" = .ok exRT ∧
    (assocFind (run_single_task exRunner exAgentOk "T1" []).outputDir
        (baseName exRT.repository) = none ∧
      assocFind (run_single_task exRunner exAgentOk "T1" []).outputDir inputDatasetName
        = none) :=
  ⟨rfl,
    C2_theorem exRunner exAgentOk "T1" [] exRT "done" [("a.txt", FSEntry.file "hello")]
      rfl rfl (by decide) rfl rfl (by decide)⟩

/-! ## Claim C3 -/

/-- C3: in a two-task batch where the first task's agent invocation raises
and the second succeeds, the exception is caught per task and recorded in
that task's error JSON, the second task still runs, the progress JSON after
each task holds exactly the results so far, and the final summary reports
2 tasks, 1 success, 1 failure and a 50.00% success rate. -/
theorem C3_theorem (R : Runner) (agent : AgentBehavior) (outInits : String → Dir)
    (A B : String) (rtA rtB : ResolvedTask) (msg ty tb : String) (scrA : Dir)
    (resB : String) (scrB : Dir)
    (hA : resolveTask R A = .ok rtA)
    (hagA : agent rtA.task_description rtA.repository rtA.input_data_json = .exn msg ty tb scrA)
    (hB : resolveTask R B = .ok rtB)
    (hagB : agent rtB.task_description rtB.repository rtB.input_data_json = .ok resB scrB) :
    (run_batch R agent outInits (some [A, B]) none).taskEffects.map Prod.fst = [A, B] ∧
    (run_batch R agent outInits (some [A, B]) none).progressWrites =
      [[ResultData.failure A msg ty tb (pathJoin R.output_root A)],
       [ResultData.failure A msg ty tb (pathJoin R.output_root A),
        ResultData.success B resB (pathJoin R.output_root B) rtB.repository
          rtB.task_description]] ∧
    (run_batch R agent outInits (some [A, B]) none).summary =
      some { total_tasks := 2, successful := 1, failed := 1, success_rate := "50.00%",
             api_type := R.api_type, output_root := R.output_root,
             results := [ResultData.failure A msg ty tb (pathJoin R.output_root A),
                         ResultData.success B resB (pathJoin R.output_root B) rtB.repository
                           rtB.task_description] } ∧
    assocFind (run_single_task R agent A (outInits A)).outputDir errorFileName =
      some (.file (encodeResultData (ResultData.failure A msg ty tb
        (pathJoin R.output_root A)))) := by
  have hA2 := run_single_task_agent_exn R agent A (outInits A) rtA msg ty tb scrA hA hagA
  have hB2 := run_single_task_agent_ok R agent B (outInits B) rtB resB scrB hB hagB
  refine ⟨?_, ?_, ?_, ?_⟩
  · simp [run_batch, applyMaxTasks, runLoop, hA2, hB2, ResultData.isSuccess]
  · simp [run_batch, applyMaxTasks, runLoop, hA2, hB2, ResultData.isSuccess]
  · simp only [run_batch, Option.getD_some, applyMaxTasks, runLoop, hA2, hB2]
    simp [mkSummary, ResultData.isSuccess, Summary.mk.injEq]
    rfl
  · rw [hA2]
    exact assocFind_assocSet_self _ _ _

/-- C3 witness: the concrete two-task batch `["A1", "B1"]` where `A1` raises
and `B1` succeeds yields the stated summary. -/
theorem C3_witness :
    resolveTask exRunner3 "A1" = .ok exRTA ∧
    (run_batch exRunner3 exAgent3 (fun _ => []) (some ["A1", "B1"]) none).summary =
      some { total_tasks := 2, successful := 1, failed := 1, success_rate := "50.00%",
             api_type := "basic", output_root := "/out",
             results := [ResultData.failure "A1" "boom" "RuntimeError" "tb" "/out/A1",
                         ResultData.success "B1" "fine" "/out/B1" "/gtb/code_base/repoA"
                           "task B"] } :=
  ⟨rfl,
    (C3_theorem exRunner3 exAgent3 (fun _ => []) "A1" "B1" exRTA exRTB
      "boom" "RuntimeError" "tb" [] "fine" [] rfl rfl rfl rfl).2.2.1⟩

/-! ## Claim C4 -/

/-- C4: for every single-task run — pre-`try` error, success, or agent
exception — the scratch directory does not exist after the run; the
`shutil.rmtree` calls on both outcome paths use `ignore_errors=True`, so
deletion never raises. -/
theorem C4_theorem (R : Runner) (agent : AgentBehavior) (tid : String) (outInit : Dir) :
    (run_single_task R agent tid outInit).tempExistsAfter = false := by
  rcases hrt : resolveTask R tid with e | rt
  · rw [run_single_task_pre_error R agent tid outInit e hrt]
  · rcases hag : agent rt.task_description rt.repository rt.input_data_json with
      ⟨res, scr⟩ | ⟨m, t, b, scr⟩
    · rw [run_single_task_agent_ok R agent tid outInit rt res scr hrt hag]
    · rw [run_single_task_agent_exn R agent tid outInit rt m t b scr hrt hag]

/-! ## Claim C5 -/

/-- C5: for a task identifier with no metadata document, the run fails with
the `config not found` error before creating the scratch or output
directory, and the output directory contents are untouched (in particular no
error JSON is written). -/
theorem C5_theorem (R : Runner) (agent : AgentBehavior) (tid : String) (outInit : Dir)
    (h : assocFind R.configs tid = none) :
    (run_single_task R agent tid outInit).returned = .error (.configNotFound tid) ∧
    (run_single_task R agent tid outInit).tempCreated = false ∧
    (run_single_task R agent tid outInit).outputEnsured = false ∧
    (run_single_task R agent tid outInit).outputDir = outInit := by
  have hrt : resolveTask R tid = .error (.configNotFound tid) := by
    simp [resolveTask, load_task_config, h]
  rw [run_single_task_pre_error R agent tid outInit _ hrt]
  exact ⟨rfl, rfl, rfl, rfl⟩

/-- C5 witness: the unconfigured identifier `missing` fails with the config
error and leaves the (empty) output contents untouched. -/
theorem C5_witness :
    assocFind exRunner.configs "missing" = none ∧
    (run_single_task exRunner exAgentOk "missing" []).returned
      = .error (.configNotFound "missing") ∧
    (run_single_task exRunner exAgentOk "missing" []).outputDir = [] :=
  ⟨rfl, (C5_theorem exRunner exAgentOk "missing" [] rfl).1,
    (C5_theorem exRunner exAgentOk "missing" [] rfl).2.2.2⟩

/-! ## Claim C6 -/

/-- C6 (refuted as stated): on a successful run whose scratch directory holds
a file named `execution_error.json`, the stale error JSON from a previous
failed run is overwritten by the artifact copy, not left unchanged. -/
theorem C6_counterexample :
    assocFind (run_single_task exRunner exAgentErrFile "T1" exStaleErr).outputDir errorFileName
      = some (FSEntry.file "new") ∧
    assocFind exStaleErr errorFileName = some (FSEntry.file "old") ∧
    (run_single_task exRunner exAgentErrFile "T1" exStaleErr).returned
      = .ok (ResultData.success "T1" "done" "/out/T1" "/gtb/code_base/repoA" "task one") ∧
    FSEntry.file "new" ≠ FSEntry.file "old" := by
  refine ⟨rfl, rfl, rfl, ?_⟩
  intro h
  injection h with h2
  exact absurd h2 (by decide)

/-- C6 (amended): provided the scratch directory holds no top-level entry
named `execution_error.json`, exactly the bookkeeping file matching the
outcome is written — the success record to `execution_result.json` on
success, the error record to `execution_error.json` on failure — and the
other file's binding (stale or absent) is exactly as before the run. -/
theorem C6_theorem (R : Runner) (agent : AgentBehavior) (tid : String) (outInit : Dir)
    (rt : ResolvedTask) (hrt : resolveTask R tid = .ok rt) :
    (∀ res scratch,
        agent rt.task_description rt.repository rt.input_data_json = .ok res scratch →
        assocFind scratch errorFileName = none →
        assocFind (run_single_task R agent tid outInit).outputDir resultFileName
            = some (.file (encodeResultData (ResultData.success tid res
                (pathJoin R.output_root tid) rt.repository rt.task_description))) ∧
        assocFind (run_single_task R agent tid outInit).outputDir errorFileName
            = assocFind outInit errorFileName) ∧
    (∀ msg ty tb scratch,
        agent rt.task_description rt.repository rt.input_data_json = .exn msg ty tb scratch →
        assocFind (run_single_task R agent tid outInit).outputDir errorFileName
            = some (.file (encodeResultData (ResultData.failure tid msg ty tb
                (pathJoin R.output_root tid)))) ∧
        assocFind (run_single_task R agent tid outInit).outputDir resultFileName
            = assocFind outInit resultFileName) := by
  constructor
  · intro res scratch hag hscr
    rw [run_single_task_agent_ok R agent tid outInit rt res scratch hrt hag]
    refine ⟨assocFind_assocSet_self _ _ _, ?_⟩
    rw [assocFind_assocSet_ne _ _ _ _ (by decide : resultFileName ≠ errorFileName)]
    exact collectOutputs_find_of_absent _ _ _ _ hscr
  · intro msg ty tb scratch hag
    rw [run_single_task_agent_exn R agent tid outInit rt msg ty tb scratch hrt hag]
    exact ⟨assocFind_assocSet_self _ _ _,
      assocFind_assocSet_ne _ _ _ _ (by decide : errorFileName ≠ resultFileName)⟩

/-- C6 witness: a successful run over an output directory holding a stale
error JSON writes the success record and leaves the stale file's binding
exactly as it was. -/
theorem C6_witness :
    resolveTask exRunner "T1" = .ok exRT ∧
    (assocFind (run_single_task exRunner exAgentOk "T1" exStaleErr).outputDir resultFileName
        = some (FSEntry.file (encodeResultData (ResultData.success "T1" "done" "/out/T1"
            "/gtb/code_base/repoA" "task one"))) ∧
      assocFind (run_single_task exRunner exAgentOk "T1" exStaleErr).outputDir errorFileName
        = assocFind exStaleErr errorFileName) :=
  ⟨rfl,
    (C6_theorem exRunner exAgentOk "T1" exStaleErr exRT rfl).1 "done"
      [("a.txt", FSEntry.file "hello")] rfl rfl⟩

/-! ## Claim C7 -/

/-- C7 (refuted as stated): with a metadata document carrying a description
and a query document that merely omits it, the merged record's description is
the empty-string default — the metadata value *is* lost. -/
theorem C7_counterexample :
    load_task_config exRunner7 "T7"
      = .ok { task_description := some "", repositories := some [exRepo],
              input_data := some [] } ∧
    exTI7.task_description = some "meta description" ∧
    (some "" : Option String) ≠ some "meta description" :=
  ⟨rfl, rfl, by decide⟩

/-- C7 (amended): when the metadata document exists and the query document
also exists, the loaded record's description, repository list and input-file
list are taken from the query document unconditionally, with empty defaults
when the query omits a field (overwriting any metadata values); when the
query document is missing, the record is exactly the metadata document and
loading succeeds. -/
theorem C7_theorem (R : Runner) (tid : String) (ti : TaskInfoDoc)
    (hti : assocFind R.configs tid = some ti) :
    (∀ q, assocFind R.queries tid = some q →
        load_task_config R tid = .ok
          { task_description := some (q.task_description.getD "")
            repositories := some (q.repositories.getD [])
            input_data := some ((q.file_paths.getD { input_files := none }).input_files.getD
              []) }) ∧
    (assocFind R.queries tid = none → load_task_config R tid = .ok ti) := by
  constructor
  · intro q hq
    simp [load_task_config, hti, hq]
  · intro hq
    simp [load_task_config, hti, hq]

/-- C7 witness: the concrete merged record for task `T7`. -/
theorem C7_witness :
    assocFind exRunner7.configs "T7" = some exTI7 ∧
    load_task_config exRunner7 "T7"
      = .ok { task_description := some "", repositories := some [exRepo],
              input_data := some [] } :=
  ⟨rfl, (C7_theorem exRunner7 "T7" exTI7 rfl).1 exQ7 rfl⟩

/-! ## Claim C8 -/

/-- C8: the code's placeholder rewriting uses Python's `str.replace`, which
removes *every* occurrence of `/GitTaskBench/`, contradicting the stated
(and commented) prefix-stripping: at the path
`/GitTaskBench/data/GitTaskBench/f` the code produces `/gtb/dataf`, whereas
joining the benchmark root with the prefix-stripped remainder gives
`/gtb/data/GitTaskBench/f`. -/
theorem C8_theorem :
    resolveRepository exRunner exRepo8 = "/gtb/dataf" ∧
    pathJoin exRunner.gittaskbench_root "data/GitTaskBench/f" = "/gtb/data/GitTaskBench/f" ∧
    ("/gtb/dataf" : String) ≠ "/gtb/data/GitTaskBench/f" :=
  ⟨rfl, rfl, by decide⟩

/-! ## Claim C9 -/

/-- C9: a task whose merged record has an empty (or absent) repository list
raises `No repository found` before any directory is created and before any
error JSON is written; inside a batch the exception propagates out of the
loop, the remaining tasks do not run, no progress is written for the failing
task, and no summary is produced. -/
theorem C9_theorem (R : Runner) (agent : AgentBehavior) (outInits : String → Dir)
    (outInit : Dir) (tid : String) (rest : List String) (ti : TaskInfoDoc)
    (hti : load_task_config R tid = .ok ti)
    (hrepo : ti.repositories.getD [] = []) :
    (run_single_task R agent tid outInit).returned = .error (.noRepository tid) ∧
    (run_single_task R agent tid outInit).tempCreated = false ∧
    (run_single_task R agent tid outInit).outputEnsured = false ∧
    (run_single_task R agent tid outInit).outputDir = outInit ∧
    (run_batch R agent outInits (some (tid :: rest)) none).summary = none ∧
    (run_batch R agent outInits (some (tid :: rest)) none).raised
      = some (.noRepository tid) ∧
    (run_batch R agent outInits (some (tid :: rest)) none).taskEffects.map Prod.fst
      = [tid] ∧
    (run_batch R agent outInits (some (tid :: rest)) none).progressWrites = [] := by
  have hrt : resolveTask R tid = .error (.noRepository tid) := by
    simp [resolveTask, hti, hrepo]
  have h1 := run_single_task_pre_error R agent tid outInit _ hrt
  have h2 := run_single_task_pre_error R agent tid (outInits tid) _ hrt
  refine ⟨by rw [h1], by rw [h1], by rw [h1], by rw [h1], ?_, ?_, ?_, ?_⟩ <;>
    simp [run_batch, applyMaxTasks, runLoop, h2]

/-- C9 witness: task `T9` has an empty repository list; the run raises and a
batch starting with it produces no summary. -/
theorem C9_witness :
    load_task_config exRunner9 "T9" = .ok exTI9 ∧
    (run_single_task exRunner9 exAgentOk "T9" []).returned = .error (.noRepository "T9") ∧
    (run_batch exRunner9 exAgentOk (fun _ => []) (some ["T9", "Tnext"]) none).summary
      = none :=
  ⟨rfl,
    (C9_theorem exRunner9 exAgentOk (fun _ => []) [] "T9" ["Tnext"] exTI9 rfl rfl).1,
    (C9_theorem exRunner9 exAgentOk (fun _ => []) [] "T9" ["Tnext"] exTI9 rfl rfl).2.2.2.2.1⟩

/-! ## Claim C10 -/

/-- C10: a task-count cap of zero is ignored (Python truthiness): the batch
runs every task in the selected list, exactly as with no cap; a positive cap
`n` runs exactly the first `min(n, length)` tasks, in list order. -/
theorem C10_theorem (R : Runner) (agent : AgentBehavior) (outInits : String → Dir)
    (ids : List String)
    (h : ∀ tid ∈ ids, ∃ rt, resolveTask R tid = .ok rt) :
    (run_batch R agent outInits (some ids) (some 0)).taskEffects.map Prod.fst = ids ∧
    (run_batch R agent outInits (some ids) none).taskEffects.map Prod.fst = ids ∧
    ∀ n : Nat, 0 < n →
      (run_batch R agent outInits (some ids) (some n)).taskEffects.map Prod.fst
        = ids.take n := by
  have hok : ∀ tid ∈ ids, ∃ rd,
      (run_single_task R agent tid (outInits tid)).returned = .ok rd := by
    intro tid htid
    obtain ⟨rt, hrt⟩ := h tid htid
    exact run_single_task_returned_ok R agent tid (outInits tid) rt hrt
  refine ⟨?_, ?_, ?_⟩
  · have := runLoop_map_fst R agent outInits ids [] 0 0 [] [] hok
    simpa [run_batch, applyMaxTasks] using this
  · have := runLoop_map_fst R agent outInits ids [] 0 0 [] [] hok
    simpa [run_batch, applyMaxTasks] using this
  · intro n hn
    obtain ⟨m, rfl⟩ : ∃ m, n = m + 1 := ⟨n - 1, (Nat.succ_pred_eq_of_pos hn).symm⟩
    have hok2 : ∀ tid ∈ ids.take (m + 1), ∃ rd,
        (run_single_task R agent tid (outInits tid)).returned = .ok rd :=
      fun tid ht => hok tid (List.take_subset _ _ ht)
    have := runLoop_map_fst R agent outInits (ids.take (m + 1)) [] 0 0 [] [] hok2
    simpa [run_batch, applyMaxTasks] using this

/-- C10 witness: the two-task list with a zero cap runs both tasks. -/
theorem C10_witness :
    (∀ tid ∈ ["A1", "B1"], ∃ rt, resolveTask exRunner3 tid = .ok rt) ∧
    (run_batch exRunner3 exAgent3 (fun _ => []) (some ["A1", "B1"]) (some 0)).taskEffects.map
        Prod.fst = ["A1", "B1"] := by
  have h : ∀ tid ∈ ["A1", "B1"], ∃ rt, resolveTask exRunner3 tid = .ok rt := by
    intro tid ht
    simp only [List.mem_cons, List.not_mem_nil, or_false] at ht
    rcases ht with rfl | rfl
    · exact ⟨exRTA, rfl⟩
    · exact ⟨exRTB, rfl⟩
  exact ⟨h, (C10_theorem exRunner3 exAgent3 (fun _ => []) ["A1", "B1"] h).1⟩

end GitTaskBench
